import Mathlib

/-!
Verification development for the `reveries-config` render-layer pipeline.

Part 1 models the attribute-override resolver `query_by_renderlayer`
(`src/reveries/maya/lib.py`, lines 40-89) as an explicit state-passing
function over a scene-graph model, so that absence of side effects on the
global "current render layer" is a provable statement rather than an
artifact of the embedding.

Part 2 models the render-layer instance synthesizer `CollectRenderlayers`
(`src/plugins/maya/publish/collect_renderlayers.py`).
-/

namespace Reveries

/-- A Maya attribute value as seen through `cmds.getAttr(..., asString=True)`.
Numbers are modelled as integers (no claim depends on fractional values). -/
inductive Value where
  | num (n : Int)
  | boolV (b : Bool)
  | str (s : String)
deriving DecidableEq, Repr

/-- Errors of one resolver call.  `layerNotFound` models the
`ValueError("RenderLayer not exists: ...")` raise, `attrNotFound` the
`AttributeError("Attribute not exists: ...")` raise, and `valueError` a
Python `ValueError` escaping a numeric coercion such as `float(...)`. -/
inductive QueryError where
  | layerNotFound
  | attrNotFound
  | valueError
deriving DecidableEq, Repr

deriving instance DecidableEq for Except

/-- Models `e` is one of the two precondition ("not found") errors. -/
def QueryError.isNotFound : QueryError → Bool
  | .layerNotFound => true
  | .attrNotFound => true
  | .valueError => false

/-- Python `bool(x)` on the value universe. -/
def pyBool : Value → Value
  | .num n => .boolV (n != 0)
  | .boolV b => .boolV b
  | .str s => .boolV (s != "")

/-- Python `float(x)` on the value universe (numbers are integral here);
`float` of a non-numeric string raises `ValueError`. -/
def pyFloat : Value → Except QueryError Value
  | .num n => .ok (.num n)
  | .boolV b => .ok (.num (if b then 1 else 0))
  | .str s =>
    match s.toInt? with
    | some n => .ok (.num n)
    | none => .error .valueError

/-- Python `int(x)` on the value universe. -/
def pyInt : Value → Except QueryError Value
  | .num n => .ok (.num n)
  | .boolV b => .ok (.num (if b then 1 else 0))
  | .str s =>
    match s.toInt? with
    | some n => .ok (.num n)
    | none => .error .valueError

/-- Python `str(x)` on the value universe. -/
def pyStr : Value → Value
  | .num n => .str (toString n)
  | .boolV b => .str (if b then "True" else "False")
  | .str s => .str s

/-- Models `eval(cmds.getAttr(node_attr, type=True))`: the Maya type-name string is
evaluated as a Python expression; the names that resolve to builtins yield a
coercion callable, anything else (e.g. `"string"`, `"long"`, `"enum"`)
raises `NameError`, modelled as `none`. -/
def pyTypeFn : String → Option (Value → Except QueryError Value)
  | "bool" => some (fun v => .ok (pyBool v))
  | "float" => some pyFloat
  | "int" => some pyInt
  | "str" => some (fun v => .ok (pyStr v))
  | _ => none

/-- Models `try: type_ = eval(...) except NameError: type_ = (lambda _: _)`. -/
def coerceOf (typeName : String) : Value → Except QueryError Value :=
  match pyTypeFn typeName with
  | some f => f
  | none => fun v => .ok v

/-- The Maya scene as visible to the resolver: the read-only facts behind
each `cmds` query, plus the one piece of global mutable state, the
currently active render layer. -/
structure Scene where
  /-- Names for which `cmds.ls(name, type="renderLayer")` is non-empty. -/
  layers : List String
  /-- Models `cmds.objExists` on a `node.attr` string. -/
  objExists : String → Bool
  /-- Models `cmds.editRenderLayerGlobals(query=True, currentRenderLayer=True)`:
  the global, mutable, host-wide active layer. -/
  currentLayer : String
  /-- Models `cmds.getAttr(plug, asString=True)` for any plug string, including
  the `<layer>.adjustments[i].value` plugs. -/
  getAttr : String → Value
  /-- Models `cmds.getAttr(plug, type=True)`: the declared attribute type name. -/
  attrTypeName : String → String
  /-- Models `cmds.listConnections(plug, type="renderLayer", source=False,
  plugs=True)` (already `or []`-defaulted). -/
  connections : String → List String

/-- Python `s.startswith(pre)`.  (Character-list implementation so that
concrete instances evaluate inside the kernel.) -/
def pyStartsWith (s pre : String) : Bool :=
  pre.data.isPrefixOf s.data

/-- Python `s.endswith(suf)`. -/
def pyEndsWith (s suf : String) : Bool :=
  suf.data.isSuffixOf s.data

/-- Models `conn.rsplit(".", 1)[0]`: everything before the last dot (the whole
string when there is no dot). -/
def rsplitBase (conn : String) : String :=
  match conn.data.reverse.dropWhile (fun c => !(c == '.')) with
  | [] => conn
  | _ :: rest => String.mk rest.reverse

/-- Models `get_value(conn)` of the source, with the state threaded explicitly:
read `<adjustment>.value` and apply the declared-type coercion. -/
def getValueS (s : Scene) (tyc : Value → Except QueryError Value)
    (conn : String) : Except QueryError Value :=
  tyc (s.getAttr (rsplitBase conn ++ ".value"))

/-- The connection scan of `query_by_renderlayer` (source lines 71-82):
record (and overwrite) the origin value on `defaultRenderLayer.adjustments`
connections, return immediately on a target-layer adjustment connection.
`.ok none` means the loop fell through with no recorded origin. -/
def scanLoop (s : Scene) (tyc : Value → Except QueryError Value)
    (layer : String) :
    List String → Option Value → Except QueryError (Option Value)
  | [], origin => .ok origin
  | conn :: rest, origin =>
    if pyStartsWith conn "defaultRenderLayer.adjustments" then
      match getValueS s tyc conn with
      | .error e => .error e
      | .ok v => scanLoop s tyc layer rest (some v)
    else if pyStartsWith conn (layer ++ ".adjustments") then
      match getValueS s tyc conn with
      | .error e => .error e
      | .ok v => .ok (some v)
    else
      scanLoop s tyc layer rest origin

/-- Models `query_by_renderlayer(node, attr, layer)` in explicit state-passing
form: the returned scene is the scene after the call.  Every `cmds` call
the source makes is a query; the model keeps the state component so that
"the active layer is unchanged" is a theorem, not a modelling assumption
(a mutating primitive exists in the model, see `editRenderLayerGlobals_set`
below, and is never invoked here). -/
def queryRL (node attr layer : String) (s : Scene) :
    Except QueryError Value × Scene :=
  if !(s.layers.contains layer) then
    (.error .layerNotFound, s)
  else
    let node_attr := node ++ "." ++ attr
    if !(s.objExists node_attr) then
      (.error .attrNotFound, s)
    else if layer == s.currentLayer then
      (.ok (s.getAttr node_attr), s)
    else
      let tyc := coerceOf (s.attrTypeName node_attr)
      match scanLoop s tyc layer (s.connections node_attr) none with
      | .error e => (.error e, s)
      | .ok (some v) => (.ok v, s)
      | .ok none => (.ok (s.getAttr node_attr), s)

/-- Models `cmds.editRenderLayerGlobals(currentRenderLayer=...)`: the state
mutation the host API offers and the resolver must never perform. -/
def editRenderLayerGlobals_set (layer : String) (s : Scene) :
    Unit × Scene :=
  ((), { s with currentLayer := layer })

/-- The resolver's value, ignoring the (unchanged) state. -/
def query_by_renderlayer (s : Scene) (node attr layer : String) :
    Except QueryError Value :=
  (queryRL node attr layer s).1

/-! ## Part 2: the render-layer instance synthesizer

`CollectRenderlayers.process` and its helpers from
`src/plugins/maya/publish/collect_renderlayers.py`.  The host and
collaborator calls the collector makes (`cmds.*`, `avalon.maya.is_locked`,
`lib.query_by_renderlayer` on `defaultRenderGlobals` / the instance node,
`lib.ls_renderable_cameras`, `utils.compose_render_filename`,
`utils.get_render_filename_prefix`, and the per-renderer AOV listing
routines, whose modules are not part of this source tree) are modelled as
fields of `CScene`; the collector's own control flow and data construction
are translated line by line. -/

/-- Scene-node type tags relevant to the collector
(`cmds.ls(..., type=...)` filters). -/
inductive NType where
  | mesh
  | transform
  | camera
  | other
deriving DecidableEq, Repr

/-- The world a collection pass runs against. -/
structure CScene where
  /-- Models `cmds.ls(type="renderLayer")`, in Maya's enumeration order. -/
  renderLayers : List String
  /-- Models `cmds.listConnections("renderLayerManager.renderLayerId")`:
  the layers linked to the render-layer manager. -/
  connectedLayers : List String
  /-- Truthiness of `cmds.getAttr(layer + ".renderable")`. -/
  renderable : String → Bool
  /-- Models `cmds.referenceQuery(layer, isNodeReferenced=True)`. -/
  referenced : String → Bool
  /-- Models `cmds.getAttr(layer + ".displayOrder")` (an integer attribute). -/
  displayOrder : String → Int
  /-- Models `self.get_render_attr("currentRenderer", layer)`. -/
  currentRenderer : String → String
  /-- Models `self.get_render_attr("startFrame" / "endFrame" / "byFrameStep", layer)`. -/
  startFrameOf : String → Value
  endFrameOf : String → Value
  byFrameStepOf : String → Value
  /-- Models `utils.compose_render_filename(layer, aov)`; the one-argument call of
  the source passes the primary channel `""`. -/
  composeRenderFilename : String → String → String
  /-- Models `utils.get_render_filename_prefix(layer)`. -/
  filenamePfx : String → String
  /-- Models `self.get_pipeline_attr(layer)` entries (resolved per layer via
  `lib.query_by_renderlayer` on the dummy instance node). -/
  assetOf : String → String
  subsetOf : String → String
  renderTypeOf : String → String
  deadlineEnableOf : String → Bool
  deadlinePoolOf : String → String
  deadlineGroupOf : String → String
  deadlinePriorityOf : String → Value
  /-- Models `avalon.maya.is_locked()`. -/
  locked : Bool
  /-- Models `context.data["workspaceDir"]`. -/
  workspaceDir : String
  /-- Members of the removed dummy `imgseq` instance (`instance[:]`). -/
  dummyMembers : List String
  /-- Models `cmds.editRenderLayerMembers(layer, query=True) or []`. -/
  layerMembers : String → List String
  /-- Models `lib.ls_renderable_cameras(layer)` (resolver-based; opaque here). -/
  renderableCameras : String → List String
  /-- Models `reveries.maya.vray.utils.get_vray_element_names(layer)`. -/
  vrayElementNames : String → List String
  /-- Models `reveries.maya.arnold.utils.get_arnold_aov_names(layer)`. -/
  arnoldAOVNames : String → List String
  /-- The DAG universe: every existing scene node name. -/
  nodes : List String
  /-- The DAG parent of a node (`none` for world-root nodes). -/
  parent : String → Option String
  /-- The node's type tag. -/
  nodeType : String → NType
  /-- The `intermediateObject` flag (`noIntermediate` filters these out). -/
  intermediate : String → Bool
  /-- Hierarchy depth, used only to bound ancestor walks (see `CSceneWF`). -/
  depth : String → Nat

/-- The parent pointer of `n` stays inside the scene and strictly
decreases the depth measure. -/
def parentOk (s : CScene) (n : String) : Bool :=
  match s.parent n with
  | some p => decide (p ∈ s.nodes) && decide (s.depth p < s.depth n)
  | none => true

/-- DAG well-formedness: a scene node's parent is a scene node of smaller
depth.  Every real Maya DAG satisfies this (depth = path length). -/
def CSceneWF (s : CScene) : Prop :=
  ∀ n ∈ s.nodes, parentOk s n = true

instance (s : CScene) : Decidable (CSceneWF s) :=
  List.decidableBAll _ s.nodes

/-- Unpacked form of `parentOk`. -/
theorem parentOk_spec {s : CScene} {n p : String}
    (h : parentOk s n = true) (hp : s.parent n = some p) :
    p ∈ s.nodes ∧ s.depth p < s.depth n := by
  unfold parentOk at h
  rw [hp] at h
  simp only [Bool.and_eq_true, decide_eq_true_eq] at h
  exact h

/-- Models `a` is a strict ancestor of `n` in the DAG. -/
inductive Ancestor (s : CScene) : String → String → Prop where
  | parent {n p : String} : s.parent n = some p → Ancestor s p n
  | step {n p a : String} :
      s.parent n = some p → Ancestor s a p → Ancestor s a n

/-- The chain of ancestors of `n`, walked with `fuel` steps. -/
def ancestorChain (s : CScene) : Nat → String → List String
  | 0, _ => []
  | fuel + 1, n =>
    match s.parent n with
    | none => []
    | some p => p :: ancestorChain s fuel p

/-- All ancestors of `n` (the depth bounds the chain length on
well-formed scenes). -/
def ancestorsOf (s : CScene) (n : String) : List String :=
  ancestorChain s (s.depth n) n

/-- Models `cmds.listRelatives(ms, allDescendents=True)`: every scene node having
some element of `ms` among its ancestors. -/
def listRelativesAllDesc (s : CScene) (ms : List String) : List String :=
  s.nodes.filter (fun n => (ancestorsOf s n).any (fun a => ms.contains a))

/-- Models `cmds.ls(ns, long=True)`: keep the existing nodes. -/
def lsExisting (s : CScene) (ns : List String) : List String :=
  ns.filter (fun n => s.nodes.contains n)

/-- Models `cmds.ls(ns, type=t, long=True)`. -/
def lsType (s : CScene) (t : NType) (ns : List String) : List String :=
  ns.filter (fun n => s.nodes.contains n && s.nodeType n == t)

/-- Models `cmds.ls(ns, type="mesh", noIntermediate=True, long=True)`. -/
def lsMeshNoIntermediate (s : CScene) (ns : List String) : List String :=
  ns.filter (fun n =>
    s.nodes.contains n && s.nodeType n == NType.mesh && !s.intermediate n)

/-- Models `os.path.join(workspace, "renders")` (POSIX flavour). -/
def osPathJoin (a b : String) : String :=
  if a = "" then b
  else if pyEndsWith a "/" then a ++ b
  else a ++ "/" ++ b

/-- Models `context.data["outputDir"] = os.path.join(workspace, "renders")`. -/
def contextOutputDir (s : CScene) : String :=
  osPathJoin s.workspaceDir "renders"

/-- Models `path.replace("\\", "/")` (single-character substring replacement). -/
def replaceBackslashes (p : String) : String :=
  String.mk (p.data.map (fun c => if c == '\\' then '/' else c))

/-- The characters after the last occurrence of `sep` (all of `cs` when
`sep` does not occur). -/
def afterLastChar (sep : Char) (cs : List Char) : List Char :=
  (cs.reverse.takeWhile (fun c => !(c == sep))).reverse

/-- Models `os.path.splitext(p)[-1]`: the extension of the final path component;
empty when that component has no dot, or only leading dots before the
last dot (matching the stdlib's leading-dot rule). -/
def splitextExt (p : String) : String :=
  let base := afterLastChar '/' p.data
  if base.contains '.' then
    let name := ((base.reverse.dropWhile (fun c => !(c == '.'))).drop 1).reverse
    let ext := '.' :: afterLastChar '.' base
    if name.any (fun c => !(c == '.')) then String.mk ext else ""
  else ""

/-- One synthesized publish instance: the `context.create_instance` handle
together with the `instance.data` keys the collector writes.  Keys a
variant may leave untouched are `Option`-typed with `none` for "absent". -/
structure PInstance where
  name : String
  members : List String
  renderlayer : String
  startFrame : Value
  endFrame : Value
  byFrameStep : Value
  renderer : String
  filenamePfx : String
  fileExt : String
  asset : String
  subset : String
  renderType : String
  deadlineEnable : Bool
  deadlinePool : String
  deadlineGroup : String
  deadlinePriority : Value
  privilegeOnLock : Bool
  family : String
  families : List String
  optional : Option Bool
  publish : Option Bool
  category : Option String
  useContractor : Option Bool
  publishContractor : Option String
  renderCam : List String
  outputPaths : List (String × String)
  extractType : Option String
  renderLayerMember : List String
deriving DecidableEq, Repr

/-- Models `publish_on_lock(instance)`: force the instance non-optional and
non-publishable when the scene is not locked. -/
def publish_on_lock (s : CScene) (inst : PInstance) : PInstance :=
  if !s.locked then
    { inst with optional := some false, publish := some false }
  else
    inst

/-- Models `set_extraction_type(instance)`. -/
def set_extraction_type (inst : PInstance) : PInstance :=
  if inst.outputPaths.length > 1 then
    { inst with extractType := some "imageSequenceSet" }
  else
    { inst with extractType := some "imageSequence" }

/-- Models `OrderedDict` assignment `paths[aov] = v`: overwrite in place when the
key exists, append otherwise. -/
def odSet (m : List (String × String)) (k v : String) :
    List (String × String) :=
  if m.any (fun p => p.1 == k) then
    m.map (fun p => if p.1 == k then (k, v) else p)
  else
    m ++ [(k, v)]

/-- The renderer-reported AOV channel list (`get_vray_element_names` /
`get_arnold_aov_names` dispatch; unknown renderers contribute none). -/
def aovNamesOf (s : CScene) (renderer layer : String) : List String :=
  if renderer = "vray" then s.vrayElementNames layer
  else if renderer = "arnold" then s.arnoldAOVNames layer
  else []

/-- Models `CollectRenderlayers.collect_output_paths(instance)`. -/
def collect_output_paths (s : CScene) (inst : PInstance) : PInstance :=
  let aov_names := aovNamesOf s inst.renderer inst.renderlayer ++ [""]
  let output_dir := contextOutputDir s
  let paths := aov_names.foldl
    (fun m aov =>
      let output_pfx := s.composeRenderFilename inst.renderlayer aov
      let output_path := output_dir ++ "/" ++ output_pfx
      odSet m aov (replaceBackslashes output_path))
    []
  { inst with outputPaths := paths }

/-- Models `CollectRenderlayers.process_playblast(instance, layer)`. -/
def process_playblast (s : CScene) (inst : PInstance) : PInstance :=
  let inst := { inst with
    families := ["reveries.imgseq.playblast"],
    category := some "Playblast" }
  let inst := publish_on_lock s inst
  let inst :=
    if inst.deadlineEnable then
      { inst with
        useContractor := some true,
        publishContractor := some "deadline.maya.script" }
    else inst
  let hierarchy := inst.members ++ listRelativesAllDesc s inst.members
  { inst with renderCam := lsType s NType.camera hierarchy }

/-- Models `CollectRenderlayers.process_turntable(instance, layer)`. -/
def process_turntable (s : CScene) (inst : PInstance) (layer : String) :
    PInstance :=
  let inst := { inst with subset := inst.subset ++ "." ++ inst.name }
  let inst := { inst with
    families := ["reveries.imgseq.turntable"],
    category := some ("Turntable: " ++ inst.renderer) }
  let inst := publish_on_lock s inst
  let inst :=
    if inst.deadlineEnable then
      { inst with
        useContractor := some true,
        publishContractor := some "deadline.maya.render" }
    else inst
  let hierarchy := inst.members ++ listRelativesAllDesc s inst.members
  let instanceCam := lsType s NType.camera hierarchy
  let renderCam := instanceCam.filter
    (fun c => (s.renderableCameras layer).contains c)
  let inst := { inst with renderCam := renderCam }
  set_extraction_type (collect_output_paths s inst)

/-- Models `CollectRenderlayers.process_batchrender(instance, layer)`. -/
def process_batchrender (s : CScene) (inst : PInstance) (layer : String) :
    PInstance :=
  let inst := { inst with subset := inst.subset ++ "." ++ inst.name }
  let inst := { inst with
    families := ["reveries.imgseq.batchrender"],
    category := some ("Render: " ++ inst.renderer) }
  let inst :=
    if inst.deadlineEnable then
      { inst with
        useContractor := some true,
        publishContractor := some "deadline.maya.render" }
    else inst
  let hierarchy := inst.members ++ listRelativesAllDesc s inst.members
  let instanceCam := lsType s NType.camera hierarchy
  let renderCam := instanceCam.filter
    (fun c => (s.renderableCameras layer).contains c)
  let inst := { inst with renderCam := renderCam }
  set_extraction_type (collect_output_paths s inst)

/-- The pass aborts on `getattr(self, "process_" + renderType)` raising
`AttributeError` for an unrecognized render type. -/
inductive CollectError where
  | unknownRenderType (tag : String)
deriving DecidableEq, Repr

/-- Source lines 107-131: naming (master-layer rename), per-layer render
and pipeline settings, and the freshly created instance populated with
them (keys a variant may later set start absent). -/
def initInstance (s : CScene) (layer : String) : PInstance :=
  let layername :=
    if pyEndsWith layer "defaultRenderLayer" then "masterLayer" else layer
  let renderer := s.currentRenderer layer
  let name_preview := s.composeRenderFilename layer ""
  let ext := splitextExt name_preview
  { name := layername
    members := s.dummyMembers
    renderlayer := layer
    startFrame := s.startFrameOf layer
    endFrame := s.endFrameOf layer
    byFrameStep := s.byFrameStepOf layer
    renderer := renderer
    filenamePfx := s.filenamePfx layer
    fileExt := ext
    asset := s.assetOf layer
    subset := s.subsetOf layer
    renderType := s.renderTypeOf layer
    deadlineEnable := s.deadlineEnableOf layer
    deadlinePool := s.deadlinePoolOf layer
    deadlineGroup := s.deadlineGroupOf layer
    deadlinePriority := s.deadlinePriorityOf layer
    privilegeOnLock := true
    family := "reveries.imgseq"
    families := []
    optional := none
    publish := none
    category := none
    useContractor := none
    publishContractor := none
    renderCam := []
    outputPaths := []
    extractType := none
    renderLayerMember := [] }

/-- Source lines 146-162: render-layer member collection and the
dependency-mesh transform walk, unioned into the instance members. -/
def memberCollect (s : CScene) (layer : String) (inst : PInstance) :
    PInstance :=
  let members := s.layerMembers layer
  let inst := { inst with renderLayerMember := lsExisting s members }
  let expanded := members ++ listRelativesAllDesc s members
  let meshes := lsMeshNoIntermediate s expanded
  let transforms := meshes.filterMap s.parent
  { inst with members := inst.members ++ transforms }

/-- The per-layer body of `CollectRenderlayers.process` (source lines
107-162): create and populate the instance, dispatch on the render-type
variant (`getattr(self, "process_" + renderType)`; an unknown tag raises),
then collect members.  The member collection only runs when the dispatch
succeeded, as in the source, where the raise aborts the loop body. -/
def buildInstance (s : CScene) (layer : String) :
    Except CollectError PInstance :=
  match s.renderTypeOf layer with
  | "playblast" =>
    .ok (memberCollect s layer (process_playblast s (initInstance s layer)))
  | "turntable" =>
    .ok (memberCollect s layer
      (process_turntable s (initInstance s layer) layer))
  | "batchrender" =>
    .ok (memberCollect s layer
      (process_batchrender s (initInstance s layer) layer))
  | tag => .error (.unknownRenderType tag)

/-- The per-layer loop of `CollectRenderlayers.process`: skip layers not
linked to the render-layer manager, abort the pass on the first fatal
classification failure.  Instances already emitted stay emitted
(`context.create_instance` happens before later layers run). -/
def processLayers (s : CScene) :
    List String → List PInstance × Option CollectError
  | [] => ([], none)
  | layer :: rest =>
    if s.connectedLayers.contains layer then
      match buildInstance s layer with
      | .error e => ([], some e)
      | .ok inst =>
        ((inst :: (processLayers s rest).1), (processLayers s rest).2)
    else
      processLayers s rest

/-- The enumeration filter of source lines 93-95: renderable and not
sourced from an external reference. -/
def layerCandidate (s : CScene) (i : String) : Bool :=
  s.renderable i && !s.referenced i

/-- The renderable, non-referenced layers of the enumeration
(source lines 93-95). -/
def candidateLayers (s : CScene) : List String :=
  s.renderLayers.filter (layerCandidate s)

/-- The sort key comparison `key=lambda l: cmds.getAttr(l + ".displayOrder")`. -/
def layerLe (s : CScene) (a b : String) : Bool :=
  s.displayOrder a ≤ s.displayOrder b

/-- Models `sorted(renderlayers, key=...)`: Python's `sorted` is a stable
ascending sort, matched by `List.mergeSort`. -/
def sortedLayers (s : CScene) : List String :=
  (candidateLayers s).mergeSort (layerLe s)

/-- A full collection pass: emitted instances in order, plus the fatal
error that aborted the pass, if any. -/
def processPass (s : CScene) : List PInstance × Option CollectError :=
  processLayers s (sortedLayers s)

/-! ## Lemmas about the resolver -/

/-- Models `x` carries a value (decidably). -/
def exIsOk {ε α : Type} : Except ε α → Bool
  | .ok _ => true
  | .error _ => false

theorem exIsOk_exists {ε α : Type} {x : Except ε α}
    (h : exIsOk x = true) : ∃ v, x = Except.ok v := by
  cases x with
  | ok v => exact ⟨v, rfl⟩
  | error e => simp [exIsOk] at h

/-- Models `queryRL` leaves the scene (in particular the active layer)
untouched, whatever its arguments: it only invokes query primitives. -/
theorem queryRL_state (node attr layer : String) (s : Scene) :
    (queryRL node attr layer s).2 = s := by
  simp only [queryRL]
  repeat' split
  all_goals rfl

/-- The layer-missing error path. -/
theorem queryRL_layer_missing (s : Scene) (node attr layer : String)
    (hl : s.layers.contains layer = false) :
    queryRL node attr layer s = (.error .layerNotFound, s) := by
  unfold queryRL
  rw [hl]
  rfl

/-- The attribute-missing error path. -/
theorem queryRL_attr_missing (s : Scene) (node attr layer : String)
    (hl : s.layers.contains layer = true)
    (ha : s.objExists (node ++ "." ++ attr) = false) :
    queryRL node attr layer s = (.error .attrNotFound, s) := by
  simp only [queryRL]
  rw [hl, ha]
  rfl

/-- The fast path: the queried layer is the active one. -/
theorem queryRL_fast_path (s : Scene) (node attr layer : String)
    (hl : s.layers.contains layer = true)
    (ha : s.objExists (node ++ "." ++ attr) = true)
    (hc : (layer == s.currentLayer) = true) :
    queryRL node attr layer s =
      (.ok (s.getAttr (node ++ "." ++ attr)), s) := by
  simp only [queryRL]
  rw [hl, ha, hc]
  rfl

/-- On the slow path the resolver's result is decided by the connection
scan. -/
theorem queryRL_scan (s : Scene) (node attr layer : String)
    (hl : s.layers.contains layer = true)
    (ha : s.objExists (node ++ "." ++ attr) = true)
    (hcur : (layer == s.currentLayer) = false) :
    (queryRL node attr layer s).1 =
      (match scanLoop s (coerceOf (s.attrTypeName (node ++ "." ++ attr)))
          layer (s.connections (node ++ "." ++ attr)) none with
       | .error e => .error e
       | .ok (some v) => .ok v
       | .ok none => .ok (s.getAttr (node ++ "." ++ attr))) := by
  simp only [queryRL, hl, ha, hcur, Bool.not_true, Bool.false_eq_true,
    if_false]
  split <;> rfl

/-- A scan over connections that are neither `defaultRenderLayer`
adjustments nor target-layer adjustments keeps the current origin. -/
theorem scanLoop_no_hit (s : Scene) (tyc : Value → Except QueryError Value)
    (layer : String) :
    ∀ (cs : List String) (origin : Option Value),
      (∀ c ∈ cs, pyStartsWith c "defaultRenderLayer.adjustments" = false ∧
          pyStartsWith c (layer ++ ".adjustments") = false) →
      scanLoop s tyc layer cs origin = .ok origin := by
  intro cs
  induction cs with
  | nil => intro origin _; rfl
  | cons c rest ih =>
    intro origin h
    have hc := h c (List.mem_cons_self c rest)
    have hrest : ∀ x ∈ rest, _ ∧ _ :=
      fun x hx => h x (List.mem_cons_of_mem c hx)
    rw [scanLoop, hc.1, hc.2]
    simp only [Bool.false_eq_true, if_false]
    exact ih origin hrest

/-- Override precedence, scan side: the first target-layer adjustment
connection is returned, whatever precedes or follows it. -/
theorem scanLoop_target_hit (s : Scene)
    (tyc : Value → Except QueryError Value) (layer conn : String)
    (v : Value) (cs₂ : List String)
    (hct : pyStartsWith conn (layer ++ ".adjustments") = true)
    (hcd : pyStartsWith conn "defaultRenderLayer.adjustments" = false)
    (hv : getValueS s tyc conn = .ok v) :
    ∀ (cs₁ : List String) (origin : Option Value),
      (∀ c ∈ cs₁, pyStartsWith c (layer ++ ".adjustments") = false) →
      (∀ c ∈ cs₁, pyStartsWith c "defaultRenderLayer.adjustments" = true →
          exIsOk (getValueS s tyc c) = true) →
      scanLoop s tyc layer (cs₁ ++ conn :: cs₂) origin = .ok (some v) := by
  intro cs₁
  induction cs₁ with
  | nil =>
    intro origin _ _
    simp only [List.nil_append]
    rw [scanLoop, hcd, hct]
    simp [hv]
  | cons c rest ih =>
    intro origin h₁ h₂
    have htarget := h₁ c (List.mem_cons_self c rest)
    have h₁' : ∀ x ∈ rest, pyStartsWith x (layer ++ ".adjustments") = false :=
      fun x hx => h₁ x (List.mem_cons_of_mem c hx)
    have h₂' : ∀ x ∈ rest,
        pyStartsWith x "defaultRenderLayer.adjustments" = true →
        exIsOk (getValueS s tyc x) = true :=
      fun x hx => h₂ x (List.mem_cons_of_mem c hx)
    rw [List.cons_append]
    by_cases hd : pyStartsWith c "defaultRenderLayer.adjustments" = true
    · obtain ⟨u, hu⟩ := exIsOk_exists (h₂ c (List.mem_cons_self c rest) hd)
      rw [scanLoop, hd]
      simp only [if_true, hu]
      exact ih (some u) h₁' h₂'
    · rw [Bool.not_eq_true] at hd
      rw [scanLoop, hd, htarget]
      simp only [Bool.false_eq_true, if_false]
      exact ih origin h₁' h₂'

/-- Origin fallback, scan side: when no target-layer adjustment exists,
the scan ends on the value of the last `defaultRenderLayer` adjustment. -/
theorem scanLoop_origin_last (s : Scene)
    (tyc : Value → Except QueryError Value) (layer d : String)
    (w : Value) (ds₂ : List String)
    (hdd : pyStartsWith d "defaultRenderLayer.adjustments" = true)
    (hw : getValueS s tyc d = .ok w)
    (h₂ : ∀ c ∈ ds₂, pyStartsWith c "defaultRenderLayer.adjustments" = false ∧
        pyStartsWith c (layer ++ ".adjustments") = false) :
    ∀ (ds₁ : List String) (origin : Option Value),
      (∀ c ∈ ds₁, pyStartsWith c (layer ++ ".adjustments") = false) →
      (∀ c ∈ ds₁, pyStartsWith c "defaultRenderLayer.adjustments" = true →
          exIsOk (getValueS s tyc c) = true) →
      scanLoop s tyc layer (ds₁ ++ d :: ds₂) origin = .ok (some w) := by
  intro ds₁
  induction ds₁ with
  | nil =>
    intro origin _ _
    simp only [List.nil_append]
    rw [scanLoop, hdd]
    simp only [if_true, hw]
    exact scanLoop_no_hit s tyc layer ds₂ (some w) h₂
  | cons c rest ih =>
    intro origin h₁ hok
    have htarget := h₁ c (List.mem_cons_self c rest)
    have h₁' : ∀ x ∈ rest, pyStartsWith x (layer ++ ".adjustments") = false :=
      fun x hx => h₁ x (List.mem_cons_of_mem c hx)
    have hok' : ∀ x ∈ rest,
        pyStartsWith x "defaultRenderLayer.adjustments" = true →
        exIsOk (getValueS s tyc x) = true :=
      fun x hx => hok x (List.mem_cons_of_mem c hx)
    rw [List.cons_append]
    by_cases hd : pyStartsWith c "defaultRenderLayer.adjustments" = true
    · obtain ⟨u, hu⟩ := exIsOk_exists (hok c (List.mem_cons_self c rest) hd)
      rw [scanLoop, hd]
      simp only [if_true, hu]
      exact ih (some u) h₁' hok'
    · rw [Bool.not_eq_true] at hd
      rw [scanLoop, hd, htarget]
      simp only [Bool.false_eq_true, if_false]
      exact ih origin h₁' hok'

/-- If every adjustment value on the wire coerces, the scan cannot
fail. -/
theorem scanLoop_ok_of_values_ok (s : Scene)
    (tyc : Value → Except QueryError Value) (layer : String) :
    ∀ (cs : List String) (origin : Option Value),
      (∀ c ∈ cs, exIsOk (getValueS s tyc c) = true) →
      ∃ o, scanLoop s tyc layer cs origin = .ok o := by
  intro cs
  induction cs with
  | nil => intro origin _; exact ⟨origin, rfl⟩
  | cons c rest ih =>
    intro origin h
    have hc := h c (List.mem_cons_self c rest)
    have hrest : ∀ x ∈ rest, exIsOk (getValueS s tyc x) = true :=
      fun x hx => h x (List.mem_cons_of_mem c hx)
    obtain ⟨u, hu⟩ := exIsOk_exists hc
    by_cases hd : pyStartsWith c "defaultRenderLayer.adjustments" = true
    · rw [scanLoop, hd]
      simp only [if_true, hu]
      exact ih (some u) hrest
    · rw [Bool.not_eq_true] at hd
      by_cases ht : pyStartsWith c (layer ++ ".adjustments") = true
      · rw [scanLoop, hd, ht]
        simp only [Bool.false_eq_true, if_false, if_true, hu]
        exact ⟨some u, rfl⟩
      · rw [Bool.not_eq_true] at ht
        rw [scanLoop, hd, ht]
        simp only [Bool.false_eq_true, if_false]
        exact ih origin hrest

/-! ## Claim theorems for the resolver -/

/-- Models **C1** — Override precedence of the attribute resolver.  For a scene
holding an override connection for `node.attr` originating from the target
layer `L`'s adjustments (at position `cs₁ ++ conn :: cs₂` of the
connection list) and a default-layer origin connection (the last one being
`d`, at `ds₁ ++ d :: ds₂`), `resolve(node, attr, L)` returns `L`'s
override value, while `resolve(node, attr, M)` for a layer `M` with no
override of its own returns the default-layer fallback value. -/
theorem C1_override_precedence (s : Scene) (node attr L M : String)
    (v w : Value) (conn d : String) (cs₁ cs₂ ds₁ ds₂ : List String)
    (hL : s.layers.contains L = true)
    (hM : s.layers.contains M = true)
    (ha : s.objExists (node ++ "." ++ attr) = true)
    (hLcur : (L == s.currentLayer) = false)
    (hMcur : (M == s.currentLayer) = false)
    (hsplitL : s.connections (node ++ "." ++ attr) = cs₁ ++ conn :: cs₂)
    (hct : pyStartsWith conn (L ++ ".adjustments") = true)
    (hcd : pyStartsWith conn "defaultRenderLayer.adjustments" = false)
    (hv : getValueS s (coerceOf (s.attrTypeName (node ++ "." ++ attr)))
        conn = .ok v)
    (hcs₁ : ∀ c ∈ cs₁, pyStartsWith c (L ++ ".adjustments") = false)
    (hcs₁ok : ∀ c ∈ cs₁,
        pyStartsWith c "defaultRenderLayer.adjustments" = true →
        exIsOk (getValueS s
          (coerceOf (s.attrTypeName (node ++ "." ++ attr))) c) = true)
    (hsplitD : s.connections (node ++ "." ++ attr) = ds₁ ++ d :: ds₂)
    (hdd : pyStartsWith d "defaultRenderLayer.adjustments" = true)
    (hw : getValueS s (coerceOf (s.attrTypeName (node ++ "." ++ attr)))
        d = .ok w)
    (hds₂ : ∀ c ∈ ds₂, pyStartsWith c "defaultRenderLayer.adjustments" = false)
    (hds₁ok : ∀ c ∈ ds₁,
        pyStartsWith c "defaultRenderLayer.adjustments" = true →
        exIsOk (getValueS s
          (coerceOf (s.attrTypeName (node ++ "." ++ attr))) c) = true)
    (hMnone : ∀ c ∈ s.connections (node ++ "." ++ attr),
        pyStartsWith c (M ++ ".adjustments") = false) :
    query_by_renderlayer s node attr L = .ok v ∧
    query_by_renderlayer s node attr M = .ok w := by
  constructor
  · have hscan := queryRL_scan s node attr L hL ha hLcur
    unfold query_by_renderlayer
    rw [hscan, hsplitL,
      scanLoop_target_hit s _ L conn v cs₂ hct hcd hv cs₁ none hcs₁ hcs₁ok]
  · have hscan := queryRL_scan s node attr M hM ha hMcur
    have hds₂' : ∀ c ∈ ds₂,
        pyStartsWith c "defaultRenderLayer.adjustments" = false ∧
        pyStartsWith c (M ++ ".adjustments") = false := by
      intro c hc
      refine ⟨hds₂ c hc, hMnone c ?_⟩
      rw [hsplitD]
      exact List.mem_append_right ds₁ (List.mem_cons_of_mem d hc)
    have hds₁' : ∀ c ∈ ds₁, pyStartsWith c (M ++ ".adjustments") = false := by
      intro c hc
      refine hMnone c ?_
      rw [hsplitD]
      exact List.mem_append_left _ hc
    unfold query_by_renderlayer
    rw [hscan, hsplitD,
      scanLoop_origin_last s _ M d w ds₂ hdd hw hds₂' ds₁ none hds₁' hds₁ok]

/-- Models **C3** — The resolver is side-effect-free and idempotent: for inputs
satisfying the preconditions, the scene (in particular the active render
layer) after the call is the scene before it, and a second identical call
returns the same result. -/
theorem C3_resolver_side_effect_free (s : Scene) (node attr layer : String)
    (_hl : s.layers.contains layer = true)
    (_ha : s.objExists (node ++ "." ++ attr) = true) :
    (queryRL node attr layer s).2 = s ∧
    (queryRL node attr layer ((queryRL node attr layer s).2)).1 =
      (queryRL node attr layer s).1 :=
  ⟨queryRL_state node attr layer s, by rw [queryRL_state node attr layer s]⟩

/-- Models **C4** — No-override passthrough and fast-path/slow-path equivalence:
with no override connection at all, `resolve` returns the direct attribute
value for every existing layer, and the same value when the queried layer
is the currently-active one (the fast path). -/
theorem C4_no_override_passthrough (s : Scene) (node attr layer : String)
    (hl : s.layers.contains layer = true)
    (ha : s.objExists (node ++ "." ++ attr) = true)
    (hnoov : s.connections (node ++ "." ++ attr) = []) :
    query_by_renderlayer s node attr layer =
      .ok (s.getAttr (node ++ "." ++ attr)) ∧
    query_by_renderlayer { s with currentLayer := layer } node attr layer =
      .ok (s.getAttr (node ++ "." ++ attr)) := by
  constructor
  · by_cases hc : (layer == s.currentLayer) = true
    · unfold query_by_renderlayer
      rw [queryRL_fast_path s node attr layer hl ha hc]
    · rw [Bool.not_eq_true] at hc
      have hscan := queryRL_scan s node attr layer hl ha hc
      unfold query_by_renderlayer
      rw [hscan, hnoov]
      rfl
  · unfold query_by_renderlayer
    rw [queryRL_fast_path { s with currentLayer := layer } node attr layer
      hl ha (by simp)]

/-- Models **C9** — Resolver precondition errors: `resolve` yields a not-found
error exactly when the layer is unknown or the attribute does not exist;
when both preconditions hold (and the override values on the wire coerce,
as any Maya-typed adjustment does) it returns a value. -/
theorem C9_precondition_errors (s : Scene) (node attr layer : String)
    (hvals : ∀ c ∈ s.connections (node ++ "." ++ attr),
        exIsOk (getValueS s
          (coerceOf (s.attrTypeName (node ++ "." ++ attr))) c) = true) :
    ((∃ e, query_by_renderlayer s node attr layer = .error e ∧
        QueryError.isNotFound e = true) ↔
      (s.layers.contains layer = false ∨
        s.objExists (node ++ "." ++ attr) = false)) ∧
    (s.layers.contains layer = true →
      s.objExists (node ++ "." ++ attr) = true →
      ∃ v, query_by_renderlayer s node attr layer = .ok v) := by
  have hok : s.layers.contains layer = true →
      s.objExists (node ++ "." ++ attr) = true →
      ∃ v, query_by_renderlayer s node attr layer = .ok v := by
    intro hl ha
    by_cases hc : (layer == s.currentLayer) = true
    · exact ⟨_, by
        unfold query_by_renderlayer
        rw [queryRL_fast_path s node attr layer hl ha hc]⟩
    · rw [Bool.not_eq_true] at hc
      have hscan := queryRL_scan s node attr layer hl ha hc
      obtain ⟨o, ho⟩ := scanLoop_ok_of_values_ok s _ layer
        (s.connections (node ++ "." ++ attr)) none hvals
      unfold query_by_renderlayer
      rw [hscan, ho]
      cases o with
      | some v => exact ⟨v, rfl⟩
      | none => exact ⟨_, rfl⟩
  refine ⟨⟨?_, ?_⟩, hok⟩
  · rintro ⟨e, he, _⟩
    by_cases h1 : s.layers.contains layer = true
    · by_cases h2 : s.objExists (node ++ "." ++ attr) = true
      · obtain ⟨v, hv⟩ := hok h1 h2
        rw [hv] at he
        cases he
      · exact Or.inr (by simpa using h2)
    · exact Or.inl (by simpa using h1)
  · intro h
    rcases h with h | h
    · exact ⟨.layerNotFound, by
        unfold query_by_renderlayer
        rw [queryRL_layer_missing s node attr layer h], rfl⟩
    · by_cases hl : s.layers.contains layer = true
      · exact ⟨.attrNotFound, by
          unfold query_by_renderlayer
          rw [queryRL_attr_missing s node attr layer hl h], rfl⟩
      · rw [Bool.not_eq_true] at hl
        exact ⟨.layerNotFound, by
          unfold query_by_renderlayer
          rw [queryRL_layer_missing s node attr layer hl], rfl⟩

/-! ### A concrete scene exercising the resolver -/

/-- A small concrete scene: `node1.attr1` carries an override from layer
`L1` with origin value kept on `defaultRenderLayer`; `node2.attr2` has no
override anywhere. -/
def wScene : Scene where
  layers := ["defaultRenderLayer", "L1", "M1"]
  objExists := fun x => x == "node1.attr1" || x == "node2.attr2"
  currentLayer := "defaultRenderLayer"
  getAttr := fun x =>
    if x == "defaultRenderLayer.adjustments[0].value" then Value.num 5
    else if x == "L1.adjustments[0].value" then Value.num 9
    else Value.num 7
  attrTypeName := fun _ => "long"
  connections := fun x =>
    if x == "node1.attr1" then
      ["defaultRenderLayer.adjustments[0].plug", "L1.adjustments[0].plug"]
    else []

/-- Witness for `C1_override_precedence` at the concrete scene. -/
theorem C1_witness :
    query_by_renderlayer wScene "node1" "attr1" "L1" = .ok (Value.num 9) ∧
    query_by_renderlayer wScene "node1" "attr1" "M1" = .ok (Value.num 5) :=
  C1_override_precedence wScene "node1" "attr1" "L1" "M1"
    (Value.num 9) (Value.num 5)
    "L1.adjustments[0].plug" "defaultRenderLayer.adjustments[0].plug"
    ["defaultRenderLayer.adjustments[0].plug"] [] []
    ["L1.adjustments[0].plug"]
    (by decide) (by decide) (by decide) (by decide) (by decide)
    (by decide) (by decide) (by decide) (by decide)
    (by decide) (by decide)
    (by decide) (by decide) (by decide)
    (by decide) (by decide) (by decide)

/-- Witness for `C3_resolver_side_effect_free` at the concrete scene. -/
theorem C3_witness :
    (queryRL "node1" "attr1" "L1" wScene).2 = wScene ∧
    (queryRL "node1" "attr1" "L1"
        ((queryRL "node1" "attr1" "L1" wScene).2)).1 =
      (queryRL "node1" "attr1" "L1" wScene).1 :=
  C3_resolver_side_effect_free wScene "node1" "attr1" "L1"
    (by decide) (by decide)

/-- Witness for `C4_no_override_passthrough` at the concrete scene. -/
theorem C4_witness :
    query_by_renderlayer wScene "node2" "attr2" "M1" =
      .ok (wScene.getAttr ("node2" ++ "." ++ "attr2")) ∧
    query_by_renderlayer { wScene with currentLayer := "M1" }
        "node2" "attr2" "M1" =
      .ok (wScene.getAttr ("node2" ++ "." ++ "attr2")) :=
  C4_no_override_passthrough wScene "node2" "attr2" "M1"
    (by decide) (by decide) (by decide)

/-- Witness for `C9_precondition_errors` at the concrete scene: a missing
layer yields the not-found error, and valid preconditions yield a value. -/
theorem C9_witness :
    (∃ e, query_by_renderlayer wScene "node1" "attr1" "ghost" = .error e ∧
        QueryError.isNotFound e = true) ∧
    (∃ v, query_by_renderlayer wScene "node1" "attr1" "M1" = .ok v) :=
  ⟨((C9_precondition_errors wScene "node1" "attr1" "ghost"
      (by decide)).1).mpr (Or.inl (by decide)),
   (C9_precondition_errors wScene "node1" "attr1" "M1"
      (by decide)).2 (by decide) (by decide)⟩

/-! ## Lemmas about the synthesizer -/

/-- Fields the playblast variant leaves alone, plus the lock gate's effect
on `optional` / `publish`. -/
theorem process_playblast_fields (s : CScene) (i : PInstance) :
    (process_playblast s i).renderlayer = i.renderlayer ∧
    (process_playblast s i).name = i.name ∧
    (process_playblast s i).renderType = i.renderType ∧
    (process_playblast s i).members = i.members ∧
    (process_playblast s i).optional =
      (if s.locked then i.optional else some false) ∧
    (process_playblast s i).publish =
      (if s.locked then i.publish else some false) := by
  simp only [process_playblast, publish_on_lock]
  repeat' split
  all_goals simp_all

/-- Fields the turntable variant leaves alone, plus the lock gate's effect
(the source calls `publish_on_lock` here too). -/
theorem process_turntable_fields (s : CScene) (i : PInstance)
    (layer : String) :
    (process_turntable s i layer).renderlayer = i.renderlayer ∧
    (process_turntable s i layer).name = i.name ∧
    (process_turntable s i layer).renderType = i.renderType ∧
    (process_turntable s i layer).members = i.members ∧
    (process_turntable s i layer).optional =
      (if s.locked then i.optional else some false) ∧
    (process_turntable s i layer).publish =
      (if s.locked then i.publish else some false) := by
  simp only [process_turntable, publish_on_lock, set_extraction_type,
    collect_output_paths]
  repeat' split
  all_goals simp_all

/-- Fields the batch-render variant leaves alone; no lock gate here. -/
theorem process_batchrender_fields (s : CScene) (i : PInstance)
    (layer : String) :
    (process_batchrender s i layer).renderlayer = i.renderlayer ∧
    (process_batchrender s i layer).name = i.name ∧
    (process_batchrender s i layer).renderType = i.renderType ∧
    (process_batchrender s i layer).members = i.members ∧
    (process_batchrender s i layer).optional = i.optional ∧
    (process_batchrender s i layer).publish = i.publish := by
  simp only [process_batchrender, set_extraction_type,
    collect_output_paths]
  repeat' split
  all_goals simp_all

/-- Member collection does not touch the identity or flag fields. -/
theorem memberCollect_fields (s : CScene) (layer : String) (i : PInstance) :
    (memberCollect s layer i).renderlayer = i.renderlayer ∧
    (memberCollect s layer i).name = i.name ∧
    (memberCollect s layer i).renderType = i.renderType ∧
    (memberCollect s layer i).optional = i.optional ∧
    (memberCollect s layer i).publish = i.publish :=
  ⟨rfl, rfl, rfl, rfl, rfl⟩

/-- The member set after collection: the variant's members extended with
the parents of every non-intermediate mesh reachable from the layer's raw
membership. -/
theorem memberCollect_members (s : CScene) (layer : String) (i : PInstance) :
    (memberCollect s layer i).members =
      i.members ++
        (lsMeshNoIntermediate s
          (s.layerMembers layer ++
            listRelativesAllDesc s (s.layerMembers layer))).filterMap
          s.parent :=
  rfl

/-- The recognized render-type tags (the `process_<tag>` methods that
exist on the collector). -/
def isKnownRT (tag : String) : Bool :=
  tag == "playblast" || tag == "turntable" || tag == "batchrender"

/-- Models `buildInstance` fails exactly on an unrecognized render-type tag. -/
theorem buildInstance_error_iff (s : CScene) (layer : String) :
    (∃ e, buildInstance s layer = .error e) ↔
      isKnownRT (s.renderTypeOf layer) = false := by
  unfold buildInstance isKnownRT
  constructor
  · rintro ⟨e, he⟩
    split at he
    any_goals cases he
    rename_i h1 h2 h3
    simp only [Bool.or_eq_false_iff, beq_eq_false_iff_ne]
    exact ⟨⟨h1, h2⟩, h3⟩
  · intro h
    simp only [Bool.or_eq_false_iff, beq_eq_false_iff_ne] at h
    obtain ⟨⟨h1, h2⟩, h3⟩ := h
    split
    · exact absurd (by assumption) h1
    · exact absurd (by assumption) h2
    · exact absurd (by assumption) h3
    · exact ⟨_, rfl⟩

/-- What a successfully built instance looks like. -/
theorem buildInstance_ok_shape (s : CScene) (layer : String)
    (inst : PInstance) (h : buildInstance s layer = .ok inst) :
    ∃ iv : PInstance, inst = memberCollect s layer iv ∧
      ((s.renderTypeOf layer = "playblast" ∧
          iv = process_playblast s (initInstance s layer)) ∨
       (s.renderTypeOf layer = "turntable" ∧
          iv = process_turntable s (initInstance s layer) layer) ∨
       (s.renderTypeOf layer = "batchrender" ∧
          iv = process_batchrender s (initInstance s layer) layer)) := by
  unfold buildInstance at h
  split at h
  · cases h
    exact ⟨_, rfl, Or.inl ⟨by assumption, rfl⟩⟩
  · cases h
    exact ⟨_, rfl, Or.inr (Or.inl ⟨by assumption, rfl⟩)⟩
  · cases h
    exact ⟨_, rfl, Or.inr (Or.inr ⟨by assumption, rfl⟩)⟩
  · cases h

/-- A successfully built instance records its layer, the master-layer
rename, and the layer's render type. -/
theorem buildInstance_ok_fields (s : CScene) (layer : String)
    (inst : PInstance) (h : buildInstance s layer = .ok inst) :
    inst.renderlayer = layer ∧
    inst.name = (if pyEndsWith layer "defaultRenderLayer" then "masterLayer"
      else layer) ∧
    inst.renderType = s.renderTypeOf layer := by
  obtain ⟨iv, hiv, hcase⟩ := buildInstance_ok_shape s layer inst h
  have hmc := memberCollect_fields s layer iv
  rcases hcase with ⟨_, hv⟩ | ⟨_, hv⟩ | ⟨_, hv⟩
  · have hf := process_playblast_fields s (initInstance s layer)
    subst hiv hv
    exact ⟨by rw [hmc.1, hf.1]; rfl, by rw [hmc.2.1, hf.2.1]; rfl,
      by rw [hmc.2.2.1, hf.2.2.1]; rfl⟩
  · have hf := process_turntable_fields s (initInstance s layer) layer
    subst hiv hv
    exact ⟨by rw [hmc.1, hf.1]; rfl, by rw [hmc.2.1, hf.2.1]; rfl,
      by rw [hmc.2.2.1, hf.2.2.1]; rfl⟩
  · have hf := process_batchrender_fields s (initInstance s layer) layer
    subst hiv hv
    exact ⟨by rw [hmc.1, hf.1]; rfl, by rw [hmc.2.1, hf.2.1]; rfl,
      by rw [hmc.2.2.1, hf.2.2.1]; rfl⟩

/-- Branch equation: a layer not linked to the render-layer manager is
skipped. -/
theorem processLayers_cons_skip (s : CScene) (layer : String)
    (rest : List String)
    (hc : ¬ s.connectedLayers.contains layer = true) :
    processLayers s (layer :: rest) = processLayers s rest := by
  rw [processLayers, if_neg hc]

/-- Branch equation: a fatal classification failure aborts the pass. -/
theorem processLayers_cons_error (s : CScene) (layer : String)
    (rest : List String) (e : CollectError)
    (hc : s.connectedLayers.contains layer = true)
    (hb : buildInstance s layer = .error e) :
    processLayers s (layer :: rest) = ([], some e) := by
  rw [processLayers, if_pos hc, hb]

/-- Branch equation: a successfully built instance is emitted in front of
the rest of the pass. -/
theorem processLayers_cons_ok (s : CScene) (layer : String)
    (rest : List String) (inst : PInstance)
    (hc : s.connectedLayers.contains layer = true)
    (hb : buildInstance s layer = .ok inst) :
    processLayers s (layer :: rest) =
      ((inst :: (processLayers s rest).1), (processLayers s rest).2) := by
  rw [processLayers, if_pos hc, hb]

/-- Every emitted instance arises from a connected layer of the processed
list via `buildInstance`. -/
theorem processLayers_mem (s : CScene) :
    ∀ (L : List String) (inst : PInstance),
      inst ∈ (processLayers s L).1 →
      ∃ layer ∈ L, s.connectedLayers.contains layer = true ∧
        buildInstance s layer = .ok inst := by
  intro L
  induction L with
  | nil => intro inst h; cases h
  | cons layer rest ih =>
    intro inst h
    by_cases hc : s.connectedLayers.contains layer = true
    · cases hb : buildInstance s layer with
      | error e =>
        rw [processLayers_cons_error s layer rest e hc hb] at h
        cases h
      | ok built =>
        rw [processLayers_cons_ok s layer rest built hc hb] at h
        rcases List.mem_cons.mp h with h | h
        · exact ⟨layer, List.mem_cons_self _ _, hc, h ▸ hb⟩
        · obtain ⟨l, hl, hcl, hbl⟩ := ih inst h
          exact ⟨l, List.mem_cons_of_mem _ hl, hcl, hbl⟩
    · rw [processLayers_cons_skip s layer rest hc] at h
      obtain ⟨l, hl, hcl, hbl⟩ := ih inst h
      exact ⟨l, List.mem_cons_of_mem _ hl, hcl, hbl⟩

/-- The emitted layer sequence is a sublist of the processed list. -/
theorem processLayers_layers_sublist (s : CScene) :
    ∀ L : List String,
      List.Sublist
        ((processLayers s L).1.map (fun i => PInstance.renderlayer i)) L := by
  intro L
  induction L with
  | nil => simp [processLayers]
  | cons layer rest ih =>
    by_cases hc : s.connectedLayers.contains layer = true
    · cases hb : buildInstance s layer with
      | error e =>
        rw [processLayers_cons_error s layer rest e hc hb]
        simp
      | ok built =>
        rw [processLayers_cons_ok s layer rest built hc hb]
        simp only [List.map_cons]
        rw [(buildInstance_ok_fields s layer built hb).1]
        exact List.Sublist.cons₂ layer ih
    · rw [processLayers_cons_skip s layer rest hc]
      exact List.Sublist.cons layer ih

/-- When every connected layer in the list carries a known render type,
the pass completes without error and emits exactly the connected layers,
in order. -/
theorem processLayers_complete (s : CScene) :
    ∀ L : List String,
      (∀ l ∈ L, s.connectedLayers.contains l = true →
        isKnownRT (s.renderTypeOf l) = true) →
      (processLayers s L).2 = none ∧
      ((processLayers s L).1.map (fun i => PInstance.renderlayer i)) =
        L.filter (fun l => s.connectedLayers.contains l) := by
  intro L
  induction L with
  | nil => intro _; exact ⟨rfl, rfl⟩
  | cons layer rest ih =>
    intro h
    have hrest := ih (fun l hl => h l (List.mem_cons_of_mem _ hl))
    by_cases hc : s.connectedLayers.contains layer = true
    · have hk := h layer (List.mem_cons_self _ _) hc
      cases hb : buildInstance s layer with
      | error e =>
        exfalso
        have hcontra := (buildInstance_error_iff s layer).mp ⟨e, hb⟩
        rw [hk] at hcontra
        cases hcontra
      | ok built =>
        rw [processLayers_cons_ok s layer rest built hc hb]
        refine ⟨hrest.1, ?_⟩
        have hfil : (layer :: rest).filter
            (fun l => s.connectedLayers.contains l) =
            layer :: rest.filter (fun l => s.connectedLayers.contains l) := by
          simp only [List.filter_cons]
          rw [if_pos hc]
        rw [hfil, List.map_cons,
          (buildInstance_ok_fields s layer built hb).1, hrest.2]
    · rw [processLayers_cons_skip s layer rest hc]
      have hfil : (layer :: rest).filter
          (fun l => s.connectedLayers.contains l) =
          rest.filter (fun l => s.connectedLayers.contains l) := by
        simp only [List.filter_cons]
        rw [if_neg hc]
      rw [hfil]
      exact hrest

/-- A connected layer with an unknown render type anywhere in the list
forces the pass to abort with an error. -/
theorem processLayers_error (s : CScene) :
    ∀ L : List String,
      (∃ l ∈ L, s.connectedLayers.contains l = true ∧
        isKnownRT (s.renderTypeOf l) = false) →
      (processLayers s L).2 ≠ none := by
  intro L
  induction L with
  | nil => rintro ⟨l, hl, -⟩; cases hl
  | cons layer rest ih =>
    rintro ⟨l, hl, hcl, hkl⟩
    rcases List.mem_cons.mp hl with rfl | hl
    · obtain ⟨e, he⟩ := (buildInstance_error_iff s l).mpr hkl
      rw [processLayers_cons_error s l rest e hcl he]
      simp
    · by_cases hc : s.connectedLayers.contains layer = true
      · cases hb : buildInstance s layer with
        | error e =>
          rw [processLayers_cons_error s layer rest e hc hb]
          simp
        | ok built =>
          rw [processLayers_cons_ok s layer rest built hc hb]
          exact ih ⟨l, hl, hcl, hkl⟩
      · rw [processLayers_cons_skip s layer rest hc]
        exact ih ⟨l, hl, hcl, hkl⟩

/-! ## Claim theorems for the synthesizer: the publish-lock gate and the
master-layer rename -/

/-- A neutral scene; concrete scenes below override the relevant fields. -/
def cBase : CScene where
  renderLayers := []
  connectedLayers := []
  renderable := fun _ => true
  referenced := fun _ => false
  displayOrder := fun _ => 0
  currentRenderer := fun _ => "arnold"
  startFrameOf := fun _ => Value.num 1
  endFrameOf := fun _ => Value.num 10
  byFrameStepOf := fun _ => Value.num 1
  composeRenderFilename := fun layer aov => layer ++ "_" ++ aov ++ ".exr"
  filenamePfx := fun _ => "maya/<Scene>/<RenderLayer>/<RenderLayer>"
  assetOf := fun _ => "assetA"
  subsetOf := fun _ => "renderDefault"
  renderTypeOf := fun _ => "batchrender"
  deadlineEnableOf := fun _ => false
  deadlinePoolOf := fun _ => ""
  deadlineGroupOf := fun _ => ""
  deadlinePriorityOf := fun _ => Value.num 50
  locked := false
  workspaceDir := "/proj"
  dummyMembers := []
  layerMembers := fun _ => []
  renderableCameras := fun _ => []
  vrayElementNames := fun _ => []
  arnoldAOVNames := fun _ => []
  nodes := []
  parent := fun _ => none
  nodeType := fun _ => NType.other
  intermediate := fun _ => false
  depth := fun _ => 0

/-- A blank instance record (used only as the `headD` fallback when
naming the head of a computed instance list). -/
def blankInst : PInstance where
  name := ""
  members := []
  renderlayer := ""
  startFrame := Value.num 0
  endFrame := Value.num 0
  byFrameStep := Value.num 0
  renderer := ""
  filenamePfx := ""
  fileExt := ""
  asset := ""
  subset := ""
  renderType := ""
  deadlineEnable := false
  deadlinePool := ""
  deadlineGroup := ""
  deadlinePriority := Value.num 0
  privilegeOnLock := false
  family := ""
  families := []
  optional := none
  publish := none
  category := none
  useContractor := none
  publishContractor := none
  renderCam := []
  outputPaths := []
  extractType := none
  renderLayerMember := []

/-- An unlocked scene whose single layer is a turntable. -/
def cTurn : CScene :=
  { cBase with
    renderLayers := ["ly1"]
    connectedLayers := ["ly1"]
    renderTypeOf := fun _ => "turntable" }

theorem sortedLayers_cTurn : sortedLayers cTurn = ["ly1"] := by
  have h : candidateLayers cTurn = ["ly1"] := rfl
  rw [sortedLayers, h]
  exact List.mergeSort_singleton "ly1"

/-- Models **C2 counterexample** — The claim states that a turntable-variant
instance is not altered by the publish-lock gate when the scene is
unlocked.  On this concrete unlocked scene the single emitted instance is
a turntable and has both `optional` and `publish` forced to `false`
(an unaltered instance would still carry `none` for both keys): the
source's `process_turntable` calls `publish_on_lock` too. -/
theorem C2_counterexample :
    cTurn.locked = false ∧
    (processPass cTurn).1.map (fun i => PInstance.renderType i) =
      ["turntable"] ∧
    (processPass cTurn).1.map (fun i => PInstance.optional i) =
      [some false] ∧
    (processPass cTurn).1.map (fun i => PInstance.publish i) =
      [some false] := by
  unfold processPass
  rw [sortedLayers_cTurn]
  decide

/-- Models **C2 (amended)** — Publish-lock gate: in an unlocked scene, every
instance synthesized from a playblast *or turntable* layer has its
`optional` and `publish` flags forced to `false`; a batch-render instance
is not altered by the gate (both keys keep their absent state). -/
theorem C2_lock_gate (s : CScene) (hunlock : s.locked = false) :
    ∀ inst ∈ (processPass s).1,
      ((inst.renderType = "playblast" ∨ inst.renderType = "turntable") →
        inst.optional = some false ∧ inst.publish = some false) ∧
      (inst.renderType = "batchrender" →
        inst.optional = none ∧ inst.publish = none) := by
  intro inst hmem
  obtain ⟨layer, -, -, hb⟩ := processLayers_mem s _ inst hmem
  obtain ⟨iv, hiv, hcase⟩ := buildInstance_ok_shape s layer inst hb
  have hrt := (buildInstance_ok_fields s layer inst hb).2.2
  constructor
  · intro _
    rcases hcase with ⟨-, hv⟩ | ⟨-, hv⟩ | ⟨hty, hv⟩
    · have hmc := memberCollect_fields s layer iv
      have hf := process_playblast_fields s (initInstance s layer)
      subst hiv hv
      refine ⟨?_, ?_⟩
      · rw [hmc.2.2.2.1, hf.2.2.2.2.1, hunlock]
        simp
      · rw [hmc.2.2.2.2, hf.2.2.2.2.2, hunlock]
        simp
    · have hmc := memberCollect_fields s layer iv
      have hf := process_turntable_fields s (initInstance s layer) layer
      subst hiv hv
      refine ⟨?_, ?_⟩
      · rw [hmc.2.2.2.1, hf.2.2.2.2.1, hunlock]
        simp
      · rw [hmc.2.2.2.2, hf.2.2.2.2.2, hunlock]
        simp
    · rename_i hpt
      rw [hrt, hty] at hpt
      rcases hpt with h | h <;> exact absurd h (by decide)
  · intro hbt
    rcases hcase with ⟨hty, hv⟩ | ⟨hty, hv⟩ | ⟨-, hv⟩
    · rw [hrt, hty] at hbt
      exact absurd hbt (by decide)
    · rw [hrt, hty] at hbt
      exact absurd hbt (by decide)
    · have hmc := memberCollect_fields s layer iv
      have hf := process_batchrender_fields s (initInstance s layer) layer
      subst hiv hv
      exact ⟨by rw [hmc.2.2.2.1, hf.2.2.2.2.1]; rfl,
        by rw [hmc.2.2.2.2, hf.2.2.2.2.2]; rfl⟩

/-- An unlocked scene with one playblast layer. -/
def cPlay : CScene :=
  { cBase with
    renderLayers := ["lyP"]
    connectedLayers := ["lyP"]
    renderTypeOf := fun _ => "playblast" }

/-- Witness for `C2_lock_gate` at the concrete unlocked scene. -/
theorem C2_witness :
    cPlay.locked = false ∧
    ∀ inst ∈ (processPass cPlay).1,
      ((inst.renderType = "playblast" ∨ inst.renderType = "turntable") →
        inst.optional = some false ∧ inst.publish = some false) ∧
      (inst.renderType = "batchrender" →
        inst.optional = none ∧ inst.publish = none) :=
  ⟨rfl, C2_lock_gate cPlay rfl⟩

theorem sortedLayers_cPlay : sortedLayers cPlay = ["lyP"] := by
  have h : candidateLayers cPlay = ["lyP"] := rfl
  rw [sortedLayers, h]
  exact List.mergeSort_singleton "lyP"

/-- The unlocked playblast scene does emit an instance, and the lock gate
fires on it (non-vacuity check for the gate statement). -/
theorem cPlay_emits_gated_playblast :
    (processPass cPlay).1.map (fun i => PInstance.renderType i) =
      ["playblast"] ∧
    (processPass cPlay).1.map (fun i => PInstance.publish i) =
      [some false] := by
  unfold processPass
  rw [sortedLayers_cPlay]
  decide

/-- A scene whose single (non-default) layer name merely *ends with*
`defaultRenderLayer`. -/
def cMaster : CScene :=
  { cBase with
    renderLayers := ["char_defaultRenderLayer"]
    connectedLayers := ["char_defaultRenderLayer"] }

theorem sortedLayers_cMaster :
    sortedLayers cMaster = ["char_defaultRenderLayer"] := by
  have h : candidateLayers cMaster = ["char_defaultRenderLayer"] := rfl
  rw [sortedLayers, h]
  exact List.mergeSort_singleton "char_defaultRenderLayer"

/-- Models **C10 counterexample** — The claim states that *exactly* the
default/master layer is renamed `masterLayer` and every other layer's
instance name equals its raw identifier.  The source tests
`layer.endswith("defaultRenderLayer")`, so a user layer named
`char_defaultRenderLayer` — which is not the default layer — is also
renamed, and its instance name differs from its raw identifier. -/
theorem C10_counterexample :
    "char_defaultRenderLayer" ≠ "defaultRenderLayer" ∧
    (processPass cMaster).1.map (fun i => PInstance.renderlayer i) =
      ["char_defaultRenderLayer"] ∧
    (processPass cMaster).1.map (fun i => PInstance.name i) =
      ["masterLayer"] := by
  refine ⟨by decide, ?_⟩
  unfold processPass
  rw [sortedLayers_cMaster]
  exact ⟨by decide, by decide⟩

/-- Models **C10 (amended)** — Master-layer renaming: an instance is named with
the fixed label `masterLayer` exactly when its layer's identifier *ends
with* `defaultRenderLayer` (in particular the default layer itself);
every other layer's instance name equals the layer's raw identifier. -/
theorem C10_master_rename (s : CScene) :
    (processPass s).1.map (fun i => PInstance.name i) =
      (processPass s).1.map (fun i =>
        if pyEndsWith (PInstance.renderlayer i) "defaultRenderLayer"
        then "masterLayer" else PInstance.renderlayer i) := by
  apply List.map_congr_left
  intro inst hmem
  obtain ⟨layer, -, -, hb⟩ := processLayers_mem s _ inst hmem
  obtain ⟨hrl, hname, -⟩ := buildInstance_ok_fields s layer inst hb
  rw [hname, hrl]


/-! ## Claim theorems: emission ordering and variant completeness -/

/-- Relative order of two distinct members of a sublist of a
duplicate-free list is inherited by the sublist. -/
theorem pair_sublist_of_mem {α : Type} {x y : α} :
    ∀ {l₁ l₂ : List α}, List.Sublist l₁ l₂ → l₂.Nodup →
      x ∈ l₁ → y ∈ l₁ → List.Sublist [x, y] l₂ →
      List.Sublist [x, y] l₁ := by
  intro l₁ l₂ h
  induction h with
  | slnil => intro _ hx _ _; cases hx
  | cons a h ih =>
    intro hnd hx hy hxy
    rw [List.nodup_cons] at hnd
    obtain ⟨ha, hndt⟩ := hnd
    have hxa : x ≠ a := fun heq => ha (heq ▸ h.subset hx)
    cases hxy with
    | cons _ w => exact ih hndt hx hy w
    | cons₂ _ _ => exact absurd rfl hxa
  | cons₂ a h ih =>
    rename_i t₁ t₂
    intro hnd hx hy hxy
    rw [List.nodup_cons] at hnd
    obtain ⟨ha, hndt⟩ := hnd
    by_cases hxa : x = a
    · subst hxa
      have hyt : y ∈ t₁ := by
        rcases List.mem_cons.mp hy with hy' | hy'
        · exfalso
          subst hy'
          cases hxy with
          | cons _ w => exact ha (w.subset (by simp))
          | cons₂ _ w => exact ha (w.subset (by simp))
        · exact hy'
      exact List.Sublist.cons₂ x (List.singleton_sublist.mpr hyt)
    · have hx' : x ∈ t₁ := by
        rcases List.mem_cons.mp hx with h' | h'
        · exact absurd h' hxa
        · exact h'
      have hxy' : List.Sublist [x, y] t₂ := by
        cases hxy with
        | cons _ w => exact w
        | cons₂ _ _ => exact absurd rfl hxa
      have hy' : y ∈ t₁ := by
        rcases List.mem_cons.mp hy with h' | h'
        · exfalso
          subst h'
          exact ha (hxy'.subset (by simp))
        · exact h'
      exact List.Sublist.cons a (ih hndt hx' hy' hxy')

/-- The display-order comparison is transitive. -/
theorem layerLe_trans (s : CScene) :
    ∀ (a b c : String), layerLe s a b → layerLe s b c → layerLe s a c := by
  intro a b c hab hbc
  simp only [layerLe, decide_eq_true_eq] at hab hbc ⊢
  exact le_trans hab hbc

/-- The display-order comparison is total. -/
theorem layerLe_total (s : CScene) :
    ∀ (a b : String), layerLe s a b || layerLe s b a := by
  intro a b
  simp only [layerLe, Bool.or_eq_true, decide_eq_true_eq]
  exact Int.le_total _ _

/-- Models **C5** — Instance emission ordering: the synthesized instances come
out in ascending display-order of their layers, and two emitted layers
with equal display-order keep their relative enumeration order (stable
tie-break).  `[x, y] <+ renderLayers` states that `x` precedes `y` in the
scene's stable layer enumeration. -/
theorem C5_instance_ordering (s : CScene) (x y : String)
    (hnd : s.renderLayers.Nodup) :
    ((processPass s).1.map (fun i => PInstance.renderlayer i)).Pairwise
      (fun a b => s.displayOrder a ≤ s.displayOrder b) ∧
    (s.displayOrder x = s.displayOrder y →
      List.Sublist [x, y] s.renderLayers →
      x ∈ (processPass s).1.map (fun i => PInstance.renderlayer i) →
      y ∈ (processPass s).1.map (fun i => PInstance.renderlayer i) →
      List.Sublist [x, y]
        ((processPass s).1.map (fun i => PInstance.renderlayer i))) := by
  have hsub : List.Sublist
      ((processPass s).1.map (fun i => PInstance.renderlayer i))
      (sortedLayers s) := processLayers_layers_sublist s (sortedLayers s)
  have hsorted : (sortedLayers s).Pairwise
      (fun a b => layerLe s a b = true) := by
    unfold sortedLayers
    exact List.sorted_mergeSort (layerLe_trans s) (layerLe_total s)
      (candidateLayers s)
  constructor
  · refine ((hsorted.sublist hsub).imp ?_)
    intro a b hab
    simpa [layerLe] using hab
  · intro hxy hpairR hx hy
    have hxc : x ∈ candidateLayers s := by
      have hxs := hsub.subset hx
      unfold sortedLayers at hxs
      exact List.mem_mergeSort.mp hxs
    have hyc : y ∈ candidateLayers s := by
      have hys := hsub.subset hy
      unfold sortedLayers at hys
      exact List.mem_mergeSort.mp hys
    have hpx : layerCandidate s x = true := (List.mem_filter.mp hxc).2
    have hpy : layerCandidate s y = true := (List.mem_filter.mp hyc).2
    have hpairC : List.Sublist [x, y] (candidateLayers s) := by
      have hf := hpairR.filter (layerCandidate s)
      rw [List.filter_cons, if_pos hpx, List.filter_cons, if_pos hpy] at hf
      exact hf
    have hpairPair : List.Pairwise (fun a b => layerLe s a b = true)
        [x, y] := by
      refine List.Pairwise.cons ?_ (List.pairwise_singleton _ _)
      intro b hb
      rw [List.mem_singleton] at hb
      subst hb
      simp [layerLe, hxy]
    have hpairS : List.Sublist [x, y] (sortedLayers s) := by
      unfold sortedLayers
      exact List.sublist_mergeSort (layerLe_trans s) (layerLe_total s)
        hpairPair hpairC
    have hndS : (sortedLayers s).Nodup := by
      unfold sortedLayers
      exact ((List.mergeSort_perm _ _).nodup_iff).mpr (hnd.filter _)
    exact pair_sublist_of_mem hsub hndS hx hy hpairS

/-- Three connected layers with display orders a ↦ 3, b ↦ 1, c ↦ 2. -/
def cOrd : CScene :=
  { cBase with
    renderLayers := ["a", "b", "c"]
    connectedLayers := ["a", "b", "c"]
    displayOrder := fun l => if l = "a" then 3 else if l = "b" then 1 else 2 }

/-- Witness for `C5_instance_ordering` at the three-layer scene. -/
theorem C5_witness :
    cOrd.renderLayers.Nodup ∧
    (((processPass cOrd).1.map (fun i => PInstance.renderlayer i)).Pairwise
      (fun a b => cOrd.displayOrder a ≤ cOrd.displayOrder b) ∧
    (cOrd.displayOrder "b" = cOrd.displayOrder "c" →
      List.Sublist ["b", "c"] cOrd.renderLayers →
      "b" ∈ (processPass cOrd).1.map (fun i => PInstance.renderlayer i) →
      "c" ∈ (processPass cOrd).1.map (fun i => PInstance.renderlayer i) →
      List.Sublist ["b", "c"]
        ((processPass cOrd).1.map (fun i => PInstance.renderlayer i)))) :=
  ⟨by decide, C5_instance_ordering cOrd "b" "c" (by decide)⟩

theorem sortedLayers_cOrd : sortedLayers cOrd = ["b", "c", "a"] := by
  have h : candidateLayers cOrd = ["a", "b", "c"] := rfl
  rw [sortedLayers, h]
  simp +decide [List.mergeSort, List.merge, List.splitInTwo, List.splitAt,
    List.splitAt.go, layerLe, cOrd, cBase]

/-- The spec's ordering example: display orders [3, 1, 2] lead to
instances emitted in the order of display orders [1, 2, 3]. -/
theorem spec_ordering_example :
    (processPass cOrd).1.map (fun i => PInstance.renderlayer i) =
      ["b", "c", "a"] := by
  unfold processPass
  rw [sortedLayers_cOrd]
  decide

/-- A layer is published exactly when it is linked to the render-layer
manager, flagged renderable, and not reference-sourced. -/
def qualifies (s : CScene) (l : String) : Bool :=
  s.connectedLayers.contains l && layerCandidate s l

/-- Models **C6** — Variant completeness and unknown-render-type fatality: when
every qualifying layer has a recognized render type, the pass succeeds
and each qualifying layer yields exactly one instance; a layer failing
the conditions yields none (and causes no error); a qualifying layer
with an unrecognized render type makes the pass abort with an error. -/
theorem C6_variant_completeness (s : CScene) (hnd : s.renderLayers.Nodup) :
    ((∀ l ∈ s.renderLayers, qualifies s l = true →
        isKnownRT (s.renderTypeOf l) = true) →
      (processPass s).2 = none ∧
      (∀ l ∈ s.renderLayers, qualifies s l = true →
        ((processPass s).1.map (fun i => PInstance.renderlayer i)).count l
          = 1)) ∧
    (∀ l : String, qualifies s l = false →
      ((processPass s).1.map (fun i => PInstance.renderlayer i)).count l
        = 0) ∧
    ((∃ l ∈ s.renderLayers, qualifies s l = true ∧
        isKnownRT (s.renderTypeOf l) = false) →
      (processPass s).2 ≠ none) := by
  refine ⟨?_, ?_, ?_⟩
  · intro hall
    have hcond : ∀ l ∈ sortedLayers s,
        s.connectedLayers.contains l = true →
        isKnownRT (s.renderTypeOf l) = true := by
      intro l hl hcl
      have hlc : l ∈ candidateLayers s := by
        unfold sortedLayers at hl
        exact List.mem_mergeSort.mp hl
      have hmf := List.mem_filter.mp hlc
      refine hall l hmf.1 ?_
      unfold qualifies
      rw [hcl, hmf.2]
      rfl
    obtain ⟨herr, hmap⟩ := processLayers_complete s (sortedLayers s) hcond
    refine ⟨herr, ?_⟩
    intro l hlr hq
    unfold qualifies at hq
    rw [Bool.and_eq_true] at hq
    obtain ⟨hcl, hcand⟩ := hq
    have hlc : l ∈ candidateLayers s := List.mem_filter.mpr ⟨hlr, hcand⟩
    have hls : l ∈ sortedLayers s := by
      unfold sortedLayers
      exact List.mem_mergeSort.mpr hlc
    have hlf : l ∈ (sortedLayers s).filter
        (fun l => s.connectedLayers.contains l) :=
      List.mem_filter.mpr ⟨hls, hcl⟩
    have hndf : ((sortedLayers s).filter
        (fun l => s.connectedLayers.contains l)).Nodup := by
      refine List.Nodup.filter _ ?_
      unfold sortedLayers
      exact ((List.mergeSort_perm _ _).nodup_iff).mpr (hnd.filter _)
    have hmap' : ((processPass s).1.map
        (fun i => PInstance.renderlayer i)) =
        (sortedLayers s).filter (fun l => s.connectedLayers.contains l) :=
      hmap
    rw [hmap']
    exact List.count_eq_one_of_mem hndf hlf
  · intro l hq
    rw [List.count_eq_zero]
    intro hmem
    rw [List.mem_map] at hmem
    obtain ⟨inst, hinst, hrl⟩ := hmem
    obtain ⟨layer, hlayer, hcl, hb⟩ := processLayers_mem s _ inst hinst
    have hfield := (buildInstance_ok_fields s layer inst hb).1
    have hrll : layer = l := by rw [← hfield, hrl]
    subst hrll
    have hlc : layer ∈ candidateLayers s := by
      unfold sortedLayers at hlayer
      exact List.mem_mergeSort.mp hlayer
    have hcand := (List.mem_filter.mp hlc).2
    unfold qualifies at hq
    rw [hcl, hcand] at hq
    cases hq
  · rintro ⟨l, hlr, hq, hk⟩
    unfold qualifies at hq
    rw [Bool.and_eq_true] at hq
    have hls : l ∈ sortedLayers s := by
      unfold sortedLayers
      exact List.mem_mergeSort.mpr (List.mem_filter.mpr ⟨hlr, hq.2⟩)
    exact processLayers_error s (sortedLayers s) ⟨l, hls, hq.1, hk⟩

/-- Two layers, only `a` linked to the render-layer manager. -/
def cTwo : CScene :=
  { cBase with
    renderLayers := ["a", "b"]
    connectedLayers := ["a"] }

/-- Witness for `C6_variant_completeness` at the two-layer scene. -/
theorem C6_witness :
    cTwo.renderLayers.Nodup ∧
    (((∀ l ∈ cTwo.renderLayers, qualifies cTwo l = true →
        isKnownRT (cTwo.renderTypeOf l) = true) →
      (processPass cTwo).2 = none ∧
      (∀ l ∈ cTwo.renderLayers, qualifies cTwo l = true →
        ((processPass cTwo).1.map
          (fun i => PInstance.renderlayer i)).count l = 1)) ∧
    (∀ l : String, qualifies cTwo l = false →
      ((processPass cTwo).1.map
        (fun i => PInstance.renderlayer i)).count l = 0) ∧
    ((∃ l ∈ cTwo.renderLayers, qualifies cTwo l = true ∧
        isKnownRT (cTwo.renderTypeOf l) = false) →
      (processPass cTwo).2 ≠ none)) :=
  ⟨by decide, C6_variant_completeness cTwo (by decide)⟩

/-- A connected layer with an unrecognized render-type tag. -/
def cBad : CScene :=
  { cBase with
    renderLayers := ["bad"]
    connectedLayers := ["bad"]
    renderTypeOf := fun _ => "strange" }

theorem sortedLayers_cBad : sortedLayers cBad = ["bad"] := by
  have h : candidateLayers cBad = ["bad"] := rfl
  rw [sortedLayers, h]
  exact List.mergeSort_singleton "bad"

/-- An unrecognized render-type tag aborts the pass with an error rather
than silently skipping the layer. -/
theorem unknown_rendertype_aborts :
    (processPass cBad).2 =
      some (CollectError.unknownRenderType "strange") ∧
    (processPass cBad).1 = [] := by
  unfold processPass
  rw [sortedLayers_cBad]
  decide


/-! ## Claim theorems: AOV output composition and dependency closure -/

/-- Projecting the keys out of a key-value tabulation. -/
theorem map_fst_pairs (f : String → String) (l : List String) :
    (l.map (fun n => (n, f n))).map Prod.fst = l := by
  induction l with
  | nil => rfl
  | cons a t ih => simp [ih]

/-- Models `OrderedDict` insertion of pairwise-fresh keys is plain appending. -/
theorem foldl_odSet (f : String → String) :
    ∀ (names : List String) (acc : List (String × String)),
      names.Nodup →
      (∀ n ∈ names, ∀ p ∈ acc, p.1 ≠ n) →
      names.foldl (fun m aov => odSet m aov (f aov)) acc =
        acc ++ names.map (fun n => (n, f n)) := by
  intro names
  induction names with
  | nil => intro acc _ _; simp
  | cons n rest ih =>
    intro acc hnd hdisj
    rw [List.nodup_cons] at hnd
    rw [List.foldl_cons]
    have hstep : odSet acc n (f n) = acc ++ [(n, f n)] := by
      unfold odSet
      rw [if_neg]
      intro hany
      obtain ⟨p, hp, hbeq⟩ := List.any_eq_true.mp hany
      exact hdisj n (List.mem_cons_self _ _) p hp (beq_iff_eq.mp hbeq)
    rw [hstep]
    have hdisj' : ∀ x ∈ rest, ∀ p ∈ acc ++ [(n, f n)], p.1 ≠ x := by
      intro x hx p hp
      rcases List.mem_append.mp hp with hp | hp
      · exact hdisj x (List.mem_cons_of_mem _ hx) p hp
      · rw [List.mem_singleton] at hp
        subst hp
        exact fun heq => hnd.1 ((show n = x from heq) ▸ hx)
    rw [ih (acc ++ [(n, f n)]) hnd.2 hdisj']
    simp

/-- Models `set_extraction_type` only writes the `extractType` key. -/
theorem set_extraction_type_outputPaths (i : PInstance) :
    (set_extraction_type i).outputPaths = i.outputPaths := by
  unfold set_extraction_type
  split <;> rfl

/-- The extraction-type tag as a function of the mapping size. -/
theorem set_extraction_type_extractType (i : PInstance) :
    (set_extraction_type i).extractType =
      some (if i.outputPaths.length > 1 then "imageSequenceSet"
        else "imageSequence") := by
  unfold set_extraction_type
  split <;> simp_all

/-- The composed mapping of `collect_output_paths`, under distinct
renderer-reported channel names none of which is the primary key. -/
theorem collect_output_paths_eq (s : CScene) (inst : PInstance)
    (hnd : (aovNamesOf s inst.renderer inst.renderlayer).Nodup)
    (hne : "" ∉ aovNamesOf s inst.renderer inst.renderlayer) :
    (collect_output_paths s inst).outputPaths =
      (aovNamesOf s inst.renderer inst.renderlayer ++ [""]).map
        (fun n => (n, replaceBackslashes
          (contextOutputDir s ++ "/" ++
            s.composeRenderFilename inst.renderlayer n))) := by
  have hnd' : (aovNamesOf s inst.renderer inst.renderlayer ++ [""]).Nodup := by
    rw [List.nodup_append]
    exact ⟨hnd, List.nodup_singleton _,
      fun a ha hb => hne (by rwa [List.mem_singleton.mp hb] at ha)⟩
  have h := foldl_odSet
    (fun n => replaceBackslashes
      (contextOutputDir s ++ "/" ++
        s.composeRenderFilename inst.renderlayer n))
    (aovNamesOf s inst.renderer inst.renderlayer ++ [""]) [] hnd'
    (fun _ _ p hp => absurd hp (List.not_mem_nil p))
  exact h.trans (List.nil_append _)

/-- Models **C7** — AOV output composition: the composed mapping lists the
renderer-reported channel names in order with the primary (empty-string)
channel appended last; every value is the context output directory joined
to the templated filename, backslash-normalized; the extraction-type tag
is `imageSequenceSet` when the renderer reported at least one auxiliary
channel (mapping size > 1) and `imageSequence` when the mapping has only
the primary entry. -/
theorem C7_aov_output_composition (s : CScene) (inst : PInstance)
    (hnd : (aovNamesOf s inst.renderer inst.renderlayer).Nodup)
    (hne : "" ∉ aovNamesOf s inst.renderer inst.renderlayer) :
    ((set_extraction_type (collect_output_paths s inst)).outputPaths.map
        Prod.fst =
      aovNamesOf s inst.renderer inst.renderlayer ++ [""]) ∧
    (∀ kv ∈ (set_extraction_type
        (collect_output_paths s inst)).outputPaths,
      kv.2 = replaceBackslashes
        (contextOutputDir s ++ "/" ++
          s.composeRenderFilename inst.renderlayer kv.1)) ∧
    (aovNamesOf s inst.renderer inst.renderlayer = [] →
      (set_extraction_type (collect_output_paths s inst)).extractType =
        some "imageSequence") ∧
    (aovNamesOf s inst.renderer inst.renderlayer ≠ [] →
      (set_extraction_type (collect_output_paths s inst)).extractType =
        some "imageSequenceSet") := by
  have hpaths := collect_output_paths_eq s inst hnd hne
  have hout := set_extraction_type_outputPaths (collect_output_paths s inst)
  have hext := set_extraction_type_extractType (collect_output_paths s inst)
  refine ⟨?_, ?_, ?_, ?_⟩
  · rw [hout, hpaths, map_fst_pairs]
  · intro kv hkv
    rw [hout, hpaths] at hkv
    obtain ⟨n, -, hn⟩ := List.mem_map.mp hkv
    subst hn
    rfl
  · intro hempty
    rw [hext, hpaths, hempty]
    simp
  · intro hnonempty
    rw [hext, hpaths]
    have hlen : 1 ≤ (aovNamesOf s inst.renderer inst.renderlayer).length :=
      List.length_pos.mpr hnonempty
    rw [if_pos (by simp; omega)]

/-- An arnold layer reporting the channels `["diffuse", "specular"]`,
with output directory `/proj/renders`. -/
def cAov : CScene :=
  { cBase with arnoldAOVNames := fun _ => ["diffuse", "specular"] }

/-- The instance under composition in the witness. -/
def cAovInst : PInstance :=
  { blankInst with renderer := "arnold", renderlayer := "L1" }

/-- Witness for `C7_aov_output_composition` at the concrete setup. -/
theorem C7_witness :
    ((set_extraction_type (collect_output_paths cAov cAovInst)).outputPaths.map
        Prod.fst =
      aovNamesOf cAov cAovInst.renderer cAovInst.renderlayer ++ [""]) ∧
    (∀ kv ∈ (set_extraction_type
        (collect_output_paths cAov cAovInst)).outputPaths,
      kv.2 = replaceBackslashes
        (contextOutputDir cAov ++ "/" ++
          cAov.composeRenderFilename cAovInst.renderlayer kv.1)) ∧
    (aovNamesOf cAov cAovInst.renderer cAovInst.renderlayer = [] →
      (set_extraction_type
        (collect_output_paths cAov cAovInst)).extractType =
        some "imageSequence") ∧
    (aovNamesOf cAov cAovInst.renderer cAovInst.renderlayer ≠ [] →
      (set_extraction_type
        (collect_output_paths cAov cAovInst)).extractType =
        some "imageSequenceSet") :=
  C7_aov_output_composition cAov cAovInst (by decide) (by decide)

/-- The spec's two composition examples, evaluated: with channels
`["diffuse", "specular"]` the keys are `["diffuse", "specular", ""]`,
every path sits under `/proj/renders/`, and the tag is
`imageSequenceSet`; with no reported channels the mapping has the single
key `""` and the tag is `imageSequence`. -/
theorem spec_aov_example :
    ((set_extraction_type (collect_output_paths cAov cAovInst)).outputPaths.map
      Prod.fst = ["diffuse", "specular", ""]) ∧
    ((set_extraction_type (collect_output_paths cAov cAovInst)).outputPaths.map
      Prod.snd =
      ["/proj/renders/L1_diffuse.exr", "/proj/renders/L1_specular.exr",
        "/proj/renders/L1_.exr"]) ∧
    ((set_extraction_type (collect_output_paths cAov cAovInst)).extractType =
      some "imageSequenceSet") ∧
    ((set_extraction_type (collect_output_paths cBase
        { cAovInst with renderer := "mentalray" })).outputPaths.map
      Prod.fst = [""]) ∧
    ((set_extraction_type (collect_output_paths cBase
        { cAovInst with renderer := "mentalray" })).extractType =
      some "imageSequence") := by
  decide

/-- Climbing with more fuel keeps every ancestor already reached. -/
theorem ancestorChain_mono (s : CScene) :
    ∀ (k k' : Nat) (n a : String), k ≤ k' →
      a ∈ ancestorChain s k n → a ∈ ancestorChain s k' n := by
  intro k
  induction k with
  | zero => intro k' n a _ h; cases h
  | succ k ih =>
    intro k' n a hkk h
    obtain ⟨k'', rfl⟩ : ∃ j, k' = j + 1 := ⟨k' - 1, by omega⟩
    cases hp : s.parent n with
    | none =>
      rw [ancestorChain, hp] at h
      cases h
    | some p =>
      rw [ancestorChain, hp] at h
      rw [ancestorChain, hp]
      rcases List.mem_cons.mp h with rfl | h
      · exact List.mem_cons_self _ _
      · exact List.mem_cons_of_mem _ (ih k'' p a (by omega) h)

/-- On a well-formed scene, the computed ancestor list contains every
ancestor in the transitive-closure sense. -/
theorem ancestor_mem_ancestorsOf (s : CScene) (hwf : CSceneWF s)
    {a n : String} (h : Ancestor s a n) :
    n ∈ s.nodes → a ∈ ancestorsOf s n ∧ a ∈ s.nodes := by
  induction h with
  | parent hp =>
    intro hn
    rename_i n' p'
    obtain ⟨hpn, hdep⟩ := parentOk_spec (hwf n' hn) hp
    refine ⟨?_, hpn⟩
    unfold ancestorsOf
    cases hd : s.depth n' with
    | zero => omega
    | succ k =>
      rw [ancestorChain, hp]
      exact List.mem_cons_self _ _
  | step hp hanc ih =>
    intro hn
    rename_i n' p' a'
    obtain ⟨hpn, hdep⟩ := parentOk_spec (hwf n' hn) hp
    obtain ⟨hmem, han⟩ := ih hpn
    refine ⟨?_, han⟩
    unfold ancestorsOf at hmem ⊢
    cases hd : s.depth n' with
    | zero => omega
    | succ k =>
      rw [ancestorChain, hp]
      refine List.mem_cons_of_mem _ ?_
      exact ancestorChain_mono s (s.depth p') k p' a' (by omega) hmem

/-- A node with an ancestor among `ms` is listed among the descendants of
`ms`. -/
theorem mem_listRelativesAllDesc (s : CScene) (hwf : CSceneWF s)
    (ms : List String) {m r : String}
    (hm : m ∈ s.nodes) (hr : r ∈ ms) (hanc : Ancestor s r m) :
    m ∈ listRelativesAllDesc s ms := by
  unfold listRelativesAllDesc
  refine List.mem_filter.mpr ⟨hm, ?_⟩
  rw [List.any_eq_true]
  exact ⟨r, (ancestor_mem_ancestorsOf s hwf hanc hm).1, by simpa using hr⟩

/-- Models **C8** — Dependency-member closure: for every instance created in a
collection pass, the final member set contains the (transform) parent of
every non-intermediate mesh node that is a raw member of the instance's
layer or a descendant of one. -/
theorem C8_dependency_member_closure (s : CScene) (inst : PInstance)
    (L m t : String)
    (hwf : CSceneWF s)
    (hmem : inst ∈ (processPass s).1)
    (hL : inst.renderlayer = L)
    (hmn : m ∈ s.nodes)
    (hmesh : s.nodeType m = NType.mesh)
    (hint : s.intermediate m = false)
    (hreach : m ∈ s.layerMembers L ∨
      ∃ r ∈ s.layerMembers L, Ancestor s r m)
    (hpar : s.parent m = some t)
    (_htr : s.nodeType t = NType.transform) :
    t ∈ inst.members := by
  obtain ⟨layer, -, -, hb⟩ := processLayers_mem s _ inst hmem
  have hfield := (buildInstance_ok_fields s layer inst hb).1
  have hlayerL : layer = L := by rw [← hfield, hL]
  subst hlayerL
  obtain ⟨iv, hiv, -⟩ := buildInstance_ok_shape s layer inst hb
  subst hiv
  rw [memberCollect_members]
  refine List.mem_append_right _ ?_
  refine List.mem_filterMap.mpr ⟨m, ?_, hpar⟩
  unfold lsMeshNoIntermediate
  refine List.mem_filter.mpr ⟨?_, ?_⟩
  · rcases hreach with h | ⟨r, hr, hanc⟩
    · exact List.mem_append_left _ h
    · exact List.mem_append_right _
        (mem_listRelativesAllDesc s hwf _ hmn hr hanc)
  · simp [hmn, hmesh, hint]

/-- A one-layer scene whose raw layer membership is a group containing
two meshes under one sub-transform. -/
def cDag : CScene :=
  { cBase with
    renderLayers := ["lyr"]
    connectedLayers := ["lyr"]
    layerMembers := fun _ => ["grp"]
    nodes := ["grp", "sub", "meshA", "meshB"]
    parent := fun n =>
      if n = "sub" then some "grp"
      else if n = "meshA" then some "sub"
      else if n = "meshB" then some "sub"
      else none
    nodeType := fun n =>
      if n = "meshA" then NType.mesh
      else if n = "meshB" then NType.mesh
      else NType.transform
    depth := fun n =>
      if n = "grp" then 0
      else if n = "sub" then 1
      else 2 }

theorem sortedLayers_cDag : sortedLayers cDag = ["lyr"] := by
  have h : candidateLayers cDag = ["lyr"] := rfl
  rw [sortedLayers, h]
  exact List.mergeSort_singleton "lyr"

/-- The instance the pass emits for `cDag`. -/
def c8inst : PInstance := ((processPass cDag).1).headD blankInst

/-- Witness for `C8_dependency_member_closure`: the mesh-owning transform
`sub` (not only the group `grp`) lands in the instance member set. -/
theorem C8_witness : "sub" ∈ c8inst.members := by
  have hmem : c8inst ∈ (processPass cDag).1 := by
    unfold c8inst processPass
    rw [sortedLayers_cDag]
    decide
  have hL : c8inst.renderlayer = "lyr" := by
    unfold c8inst processPass
    rw [sortedLayers_cDag]
    decide
  exact C8_dependency_member_closure cDag c8inst "lyr" "meshA" "sub"
    (by decide) hmem hL (by decide) (by decide) (by decide)
    (Or.inr ⟨"grp", by decide,
      @Ancestor.step cDag "meshA" "sub" "grp" (by decide)
        (@Ancestor.parent cDag "sub" "grp" (by decide))⟩)
    (by decide) (by decide)


end Reveries
